import Mathlib

/-!
Verification development for the Electronic-Industry-Agent repository.

This file shallowly embeds, in Lean 4:
  * the SQL-query utilities of `src/lib/doc.ts` (`cleanSqlQuery`,
    `validateSqlQuery`) and the Next.js `sql-query` route handler
    (`serializeBigInt`, `createSuccessResponse`, `createErrorResponse`,
    `withErrorHandling`, `handlePost`);
  * the dataset diff-upload engine of the FastAPI backend (classification of
    parsed rows as added / updated / unchanged against the existing table via
    configured unique-key columns, batched application, progress trace and
    error propagation).  The backend's `main.py` is not part of the source
    tree, so those definitions are modelled from the spec, as indicated in
    their doc comments.

JavaScript strings are modelled as Lean `String`s; most operations are
implemented over the underlying `List Char` so that they are structurally
recursive and evaluate inside the kernel.
-/

namespace ElecAgent

/-! ### JavaScript string primitives -/

/-- A character counted as whitespace by the JS `\s` class / `String.trim`
(restricted to the characters core Lean classifies as whitespace). -/
def jsWs (c : Char) : Bool := c.isWhitespace

/-- JS `String.prototype.trim` over the character list: drop whitespace at
both ends. -/
def trimL (l : List Char) : List Char :=
  ((l.dropWhile jsWs).reverse.dropWhile jsWs).reverse

/-- JS `startsWith` over character lists. -/
def startsWithL (p l : List Char) : Bool := l.take p.length == p

/-- JS `endsWith` over character lists. -/
def endsWithL (p l : List Char) : Bool := startsWithL p.reverse l.reverse

/-- JS `String.prototype.includes`: `sub` occurs contiguously in `l`. -/
def includesL (l sub : List Char) : Bool :=
  l.tails.any (fun t => startsWithL sub t)

/-- JS `toLowerCase` (ASCII range, which is all the SQL validator needs). -/
def toLowerL (l : List Char) : List Char := l.map Char.toLower

/-- JS `toUpperCase` (ASCII range). -/
def toUpperL (l : List Char) : List Char := l.map Char.toUpper

/-- String-level `includes`. -/
def jsIncludes (s sub : String) : Bool := includesL s.toList sub.toList

/-- String-level `toLowerCase`. -/
def jsToLower (s : String) : String := String.mk (toLowerL s.toList)

/-- String-level `toUpperCase`. -/
def jsToUpper (s : String) : String := String.mk (toUpperL s.toList)

/-- String-level `trim`. -/
def jsTrim (s : String) : String := String.mk (trimL s.toList)

/-- String-level `startsWith`. -/
def jsStartsWith (s p : String) : Bool := startsWithL p.toList s.toList

/-! ### `cleanSqlQuery` (src/lib/doc.ts lines 1711-1730) -/

/-- `cleanedSql.replace(/^```(sql)?\n?/, "")`: remove one leading code-fence
marker, greedily preferring the longer alternatives of the anchored regex. -/
def stripFenceStart (l : List Char) : List Char :=
  if startsWithL ("```sql\n".toList) l then l.drop 7
  else if startsWithL ("```sql".toList) l then l.drop 6
  else if startsWithL ("```\n".toList) l then l.drop 4
  else if startsWithL ("```".toList) l then l.drop 3
  else l

/-- `.replace(/\n?```$/, "")`: remove one trailing code-fence marker with an
optional preceding newline (greedy on the newline). -/
def stripFenceEnd (l : List Char) : List Char :=
  if endsWithL ("\n```".toList) l then l.take (l.length - 4)
  else if endsWithL ("```".toList) l then l.take (l.length - 3)
  else l

/-- Suffix of `l` that follows its last newline, or `none` when `l` contains
no newline.  Helper for the blank-line collapsing regex. -/
def afterLastNl : List Char → Option (List Char)
  | [] => none
  | c :: rest =>
    match afterLastNl rest with
    | some r => some r
    | none => if c = '\n' then some rest else none

/-- `.replace(/\n\s*\n/g, "\n")`, fuel-driven so that it reduces in the
kernel: at each newline whose following maximal whitespace run contains
another newline, the whole span from the first to the last newline of the run
collapses to a single newline, and scanning resumes after the match. -/
def collapseBlankAux : Nat → List Char → List Char
  | 0, l => l
  | _ + 1, [] => []
  | fuel + 1, c :: rest =>
    if c = '\n' then
      let run := rest.takeWhile jsWs
      let tail := rest.dropWhile jsWs
      match afterLastNl run with
      | some aft => '\n' :: collapseBlankAux fuel (aft ++ tail)
      | none => c :: collapseBlankAux fuel rest
    else c :: collapseBlankAux fuel rest

/-- `.replace(/\n\s*\n/g, "\n")` with sufficient fuel. -/
def collapseBlank (l : List Char) : List Char := collapseBlankAux l.length l

/-- `cleanSqlQuery` from `src/lib/doc.ts`: trim, strip one markdown code
fence when the string starts with one, trim again, and collapse blank lines.
(The JS guard `!sql || typeof sql !== "string"` returns `""`, which for
string inputs coincides with this pipeline on `""`.) -/
def cleanSqlQuery (sql : String) : String :=
  let s1 := trimL sql.toList
  let s2 :=
    if startsWithL ("```sql".toList) s1 || startsWithL ("```".toList) s1 then
      stripFenceEnd (stripFenceStart s1)
    else s1
  String.mk (collapseBlank (trimL s2))

/-! ### `validateSqlQuery` (src/lib/doc.ts lines 1736-1781) -/

/-- Result record of `validateSqlQuery`. -/
structure ValidationResult where
  isValid : Bool
  error : Option String
deriving DecidableEq

/-- The `dangerousOperations` list of `validateSqlQuery`, in source order. -/
def dangerousOperations : List String :=
  ["drop table", "drop database", "truncate", "delete from", "update ",
   "insert into", "alter table", "create table", "create database"]

/-- `validateSqlQuery` from `src/lib/doc.ts`: lowercase the cleaned query,
reject the empty string, reject any query containing a dangerous operation
substring (first hit wins, source order), and require a `select`/`with`
prefix. -/
def validateSqlQuery (sql : String) : ValidationResult :=
  if sql = "" then ⟨false, some "SQL查询语句不能为空"⟩
  else
    let cleanedSql := jsToLower (cleanSqlQuery sql)
    if cleanedSql = "" then ⟨false, some "SQL查询语句为空"⟩
    else
      match dangerousOperations.find? (fun op => jsIncludes cleanedSql op) with
      | some op =>
        ⟨false, some ("不允许执行 " ++ jsToUpper op ++ " 操作，仅支持查询操作")⟩
      | none =>
        if !(jsStartsWith cleanedSql "select") && !(jsStartsWith cleanedSql "with") then
          ⟨false, some "仅支持 SELECT 查询语句"⟩
        else ⟨true, none⟩

/-! ### JavaScript runtime values and `serializeBigInt`
(sql-query route, src/unnamed/part_003 lines 11-41) -/

/-- A JavaScript runtime value as far as the sql-query route manipulates it:
`null`/`undefined`, primitives, `BigInt` (carrying its integer), `Date`
(carrying the string its `toISOString` returns), arrays and plain objects. -/
inductive JSVal where
  | null
  | undef
  | bool (b : Bool)
  | num (q : ℚ)
  | str (s : String)
  | bigint (i : ℤ)
  | date (iso : String)
  | arr (elems : List JSVal)
  | obj (fields : List (String × JSVal))

/-- JS `BigInt.prototype.toString` (decimal). -/
def bigintToString (i : ℤ) : String :=
  if i < 0 then "-" ++ Nat.repr i.natAbs else Nat.repr i.natAbs

mutual
/-- `serializeBigInt` from the sql-query route: recursively replace every
`BigInt` by its decimal string and every `Date` (the only modelled value with
a `toISOString` member) by its ISO string; map arrays and objects
elementwise; leave everything else unchanged. -/
def serializeBigInt : JSVal → JSVal
  | .null => .null
  | .undef => .undef
  | .bigint i => .str (bigintToString i)
  | .date iso => .str iso
  | .arr l => .arr (serializeList l)
  | .obj l => .obj (serializeFields l)
  | .bool b => .bool b
  | .num q => .num q
  | .str s => .str s

/-- `data.map(serializeBigInt)` on an array's elements. -/
def serializeList : List JSVal → List JSVal
  | [] => []
  | v :: rest => serializeBigInt v :: serializeList rest

/-- The `for (const key in data)` loop of `serializeBigInt` on an object's
fields. -/
def serializeFields : List (String × JSVal) → List (String × JSVal)
  | [] => []
  | (k, v) :: rest => (k, serializeBigInt v) :: serializeFields rest
end

/-! ### sql-query route handler (src/unnamed/part_003 lines 46-127) -/

/-- Error payload of `createErrorResponse`: `{success: false, error: {code, message}}`. -/
structure ErrorBody where
  code : String
  message : String
deriving DecidableEq

/-- An HTTP response produced by the route: either `NextResponse.json(data)`
(status 200) or the error shape of `createErrorResponse` with its status. -/
inductive ApiResponse where
  | success (body : JSVal)
  | failure (error : ErrorBody) (status : Nat)

/-- `createSuccessResponse`: serialize BigInt/Date values, then respond with
the JSON body. -/
def createSuccessResponse (data : JSVal) : ApiResponse :=
  .success (serializeBigInt data)

/-- `createErrorResponse(code, message, status)` (the source defaults
`status` to 400; every call site below passes it explicitly). -/
def createErrorResponse (code message : String) (status : Nat) : ApiResponse :=
  .failure ⟨code, message⟩ status

/-- Outcome of one database call `prisma.$queryRawUnsafe(sql)`: rows, or a
thrown error with a message. -/
inductive DbResult where
  | ok (rows : JSVal)
  | err (message : String)

/-- What a handler invocation produced: its HTTP response together with the
trace of SQL strings it actually passed to `prisma.$queryRawUnsafe`. -/
structure HandlerOutput where
  response : ApiResponse
  executed : List String

/-- `handlePost` from the sql-query route, after a successful `req.json()`:
`sql?` is the body's `sql` field (`none` when absent; the JS falsy test also
catches the empty string), `db` is the database. -/
def handlePost (sql? : Option String) (db : String → DbResult) : HandlerOutput :=
  match sql? with
  | none => ⟨createErrorResponse "INVALID_REQUEST" "缺少SQL查询语句" 400, []⟩
  | some sql =>
    if sql = "" then ⟨createErrorResponse "INVALID_REQUEST" "缺少SQL查询语句" 400, []⟩
    else
      let cleanedSql := cleanSqlQuery sql
      if cleanedSql = "" then
        ⟨createErrorResponse "INVALID_REQUEST" "SQL查询语句为空" 400, []⟩
      else
        let validation := validateSqlQuery cleanedSql
        if validation.isValid then
          match db cleanedSql with
          | .ok rows => ⟨createSuccessResponse rows, [cleanedSql]⟩
          | .err m =>
            ⟨createErrorResponse "QUERY_ERROR" ("SQL查询错误: " ++ m) 400, [cleanedSql]⟩
        else
          ⟨createErrorResponse "INVALID_SQL" (validation.error.getD "SQL查询语句无效") 400, []⟩

/-- A POST request body as the handler sees it: `req.json()` either throws
(malformed JSON) or yields a body whose `sql` field is modelled by an
optional string. -/
inductive ReqBody where
  | malformed (message : String)
  | parsed (sql? : Option String)

/-- The body of `handlePost` wrapped as a fallible computation: the only
point of the handler that can throw outside its own try/catch is
`req.json()`. -/
def handlePostTotal (body : ReqBody) (db : String → DbResult) :
    Except String HandlerOutput :=
  match body with
  | .malformed m => .error m
  | .parsed sql? => .ok (handlePost sql? db)

/-- `withErrorHandling`: catch any exception escaping the handler and turn it
into a 500 `INTERNAL_SERVER_ERROR` response. -/
def withErrorHandling (result : Except String HandlerOutput) : HandlerOutput :=
  match result with
  | .ok r => r
  | .error e => ⟨createErrorResponse "INTERNAL_SERVER_ERROR" e 500, []⟩

/-- `export const POST = withErrorHandling(handlePost)`. -/
def POST (body : ReqBody) (db : String → DbResult) : HandlerOutput :=
  withErrorHandling (handlePostTotal body db)

/-! ### Diff engine (dataset diff-upload)

The FastAPI backend `main.py` that implements the diff-upload endpoint is not
part of the source tree (only its module summary, the frontend that calls it
and the spec describe it), so the definitions below are modelled from the
spec, as their doc comments state. -/

/-- Modelled from the spec: a scalar cell value of a `ParsedRow`
(string | number | boolean | null), spec §3. -/
inductive CellValue where
  | str (s : String)
  | num (n : ℤ)
  | boolean (b : Bool)
  | null
deriving DecidableEq

/-- Modelled from the spec: a `ParsedRow`, an ordered mapping from sanitized
column name to scalar value (spec §3). -/
def Row : Type := List (String × CellValue)

instance : DecidableEq Row := inferInstanceAs (DecidableEq (List (String × CellValue)))

/-- Value of column `c` in a row; a column the row does not carry reads as
`null` (the consistent null/missing handling the spec asks for). -/
def rowGet (r : Row) (c : String) : CellValue :=
  match r.find? (fun f => f.1 == c) with
  | some f => f.2
  | none => .null

/-- Modelled from the spec: a row's key tuple, the values of the unique-key
columns in configured order (spec §4.4 step 4). -/
def keyTuple (keys : List String) (r : Row) : List CellValue :=
  keys.map (rowGet r)

/-- Modelled from the spec: the key-tuple → full-existing-row lookup of spec
§4.4 step 3, built over the existing table; when two existing rows share a
key tuple the later row wins, as in a dictionary built by insertion. -/
def lookupByKey (keys : List String) (table : List Row) (k : List CellValue) :
    Option Row :=
  table.reverse.find? (fun e => keyTuple keys e == k)

/-- Modelled from the spec: does any non-key column of the upload's column
set differ between parsed row `r` and existing row `e` (spec §4.4 step 4)? -/
def nonKeyDiffers (keys cols : List String) (r e : Row) : Bool :=
  (cols.filter (fun c => !(keys.contains c))).any
    (fun c => !(rowGet r c == rowGet e c))

/-- Classification of one parsed row relative to the existing table. -/
inductive RowClass where
  | added
  | updated
  | unchanged
deriving DecidableEq

/-- Modelled from the spec: classify a parsed row as added / updated /
unchanged (spec §4.4 step 4). -/
def classifyRow (keys cols : List String) (existing : List Row) (r : Row) :
    RowClass :=
  match lookupByKey keys existing (keyTuple keys r) with
  | none => .added
  | some e => if nonKeyDiffers keys cols r e then .updated else .unchanged

/-- Modelled from the spec: a statically configured `LogicalDataset`
(spec §3). -/
structure DatasetConfig where
  key : String
  displayName : String
  targetTable : String
  uniqueKeys : List String

/-- Modelled from the spec: the unique-key columns actually used for
diffing — the configured ones, or the first parsed column as a temporary key
when none are configured (spec §4.4 step 5, degraded mode). -/
def effectiveKeys (cfg : DatasetConfig) (cols : List String) : List String :=
  if cfg.uniqueKeys.isEmpty then cols.take 1 else cfg.uniqueKeys

/-- Modelled from the spec: `updateRowsByKeys` applied to one stored row —
every non-key column of the upload's column set that the stored row carries
is overwritten with the parsed row's value; key columns and columns outside
the upload are untouched (spec §4.3). -/
def mergeRow (keys cols : List String) (u e : Row) : Row :=
  e.map (fun f =>
    if cols.contains f.1 && !(keys.contains f.1) then (f.1, rowGet u f.1) else f)

/-- One stored row after the update pass: merged with the updated parsed row
whose key tuple matches it, if any. -/
def applyUpdatesRow (keys cols : List String) (updates : List Row) (e : Row) :
    Row :=
  match updates.find? (fun u => keyTuple keys u == keyTuple keys e) with
  | some u => mergeRow keys cols u e
  | none => e

/-- Modelled from the spec: apply the updated rows to the existing table —
each stored row whose key tuple matches an updated parsed row is merged with
it; rows are neither removed nor reordered (spec §4.3, §4.4 step 6). -/
def applyUpdates (keys cols : List String) (updates : List Row)
    (table : List Row) : List Row :=
  table.map (applyUpdatesRow keys cols updates)

/-- Modelled from the spec: the response body of
`POST /api/datasets/{key}/diff-upload` (spec §6). -/
structure DiffUploadResponse where
  datasetKey : String
  displayName : String
  targetTable : String
  totalRows : Nat
  addedCount : Nat
  updatedCount : Nat
  deletedCount : Nat
  filename : String
  downloadUrl : String
  rowCount : Nat
  uniqueColumns : List String

/-- JSON encoding of a `DiffUploadResponse` as an ordered field list. -/
def encodeDiffUploadResponse (r : DiffUploadResponse) : List (String × JSVal) :=
  [("datasetKey", .str r.datasetKey),
   ("displayName", .str r.displayName),
   ("targetTable", .str r.targetTable),
   ("totalRows", .num r.totalRows),
   ("addedCount", .num r.addedCount),
   ("updatedCount", .num r.updatedCount),
   ("deletedCount", .num r.deletedCount),
   ("filename", .str r.filename),
   ("downloadUrl", .str r.downloadUrl),
   ("rowCount", .num r.rowCount),
   ("uniqueColumns", .arr (r.uniqueColumns.map .str))]

/-- Outcome of one diff-upload: the HTTP response body and the table
contents after the writes. -/
structure UploadOutcome where
  response : DiffUploadResponse
  newTable : List Row

/-- Modelled from the spec: the diff-upload algorithm of spec §4.4 in its
default path — classify every parsed row against the existing table using the
effective unique keys, apply updates via `updateRowsByKeys` and added rows
via `insertRows` (append), never delete, and report the counts; the response
surfaces the *configured* unique-key columns (empty in degraded mode). -/
def diffUpload (cfg : DatasetConfig) (cols : List String) (rows : List Row)
    (existing : List Row) (filename downloadUrl : String) : UploadOutcome :=
  let keys := effectiveKeys cfg cols
  let added := rows.filter (fun r => classifyRow keys cols existing r == .added)
  let updated := rows.filter (fun r => classifyRow keys cols existing r == .updated)
  { response :=
      { datasetKey := cfg.key
        displayName := cfg.displayName
        targetTable := cfg.targetTable
        totalRows := rows.length
        addedCount := added.length
        updatedCount := updated.length
        deletedCount := 0
        filename := filename
        downloadUrl := downloadUrl
        rowCount := rows.length
        uniqueColumns := cfg.uniqueKeys }
    newTable := applyUpdates keys cols updated existing ++ added }

/-! ### Progress tracker trace -/

/-- Modelled from the spec: the `UploadProgress` record returned by
`GET /api/datasets/{key}/diff-progress` (spec §3, §6). -/
structure UploadProgress where
  status : String
  stage : String
  percent : Nat
  insertedTotal : Nat
  updatedTotal : Nat
  totalRows : Nat
deriving DecidableEq

/-- Number of write batches for `n` rows at batch size `b` (ceiling). -/
def numBatches (n b : Nat) : Nat := (n + b - 1) / b

/-- Rows processed once batch `i` (0-based) has been written. -/
def processedAfter (n b i : Nat) : Nat := min ((i + 1) * b) n

/-- Modelled from the spec: the progress state published after write batch
`i`, with `percent = rows processed / total rows × 100` (spec §4.4 step 6).
The split of the processed rows between the running inserted and updated
totals does not affect the published percent; the trace attributes them to
`insertedTotal`. -/
def writingStage (n b i : Nat) : UploadProgress :=
  { status := "writing", stage := "writing",
    percent := processedAfter n b i * 100 / n,
    insertedTotal := processedAfter n b i, updatedTotal := 0, totalRows := n }

/-- A pre-writing stage of the upload state machine at 0 percent. -/
def earlyStage (label : String) (n : Nat) : UploadProgress :=
  { status := label, stage := label, percent := 0,
    insertedTotal := 0, updatedTotal := 0, totalRows := n }

/-- The terminal state of a successful upload. -/
def doneStage (n : Nat) : UploadProgress :=
  { status := "done", stage := "done", percent := 100,
    insertedTotal := n, updatedTotal := 0, totalRows := n }

/-- Modelled from the spec: the sequence of `UploadProgress` values published
by one successful diff-upload of `n` rows at batch size `b`, staged
`receiving → parsing → diffing → writing (per batch) → done`
(spec §4.4 steps 6 and 8, §8).  A poller observes a subsequence of it. -/
def progressTrace (n b : Nat) : List UploadProgress :=
  ([earlyStage "receiving" n, earlyStage "parsing" n, earlyStage "diffing" n] ++
    (List.range (numBatches n b)).map (writingStage n b)) ++ [doneStage n]

/-! ### Error propagation of one diff-upload -/

/-- Modelled from the spec: the error taxonomy of a diff-upload (spec §7);
a write failure carries the number of rows committed before it. -/
inductive UploadError where
  | parseFailure (message : String)
  | schemaFailure (message : String)
  | writeFailure (message : String) (committedRows : Nat)
deriving DecidableEq

/-- Modelled from the spec: the HTTP status class an `UploadError` is
surfaced with — parse and schema errors are 4xx, a write failure is a
server-side 5xx (spec §7). -/
def errorStatus : UploadError → Nat
  | .parseFailure _ => 400
  | .schemaFailure _ => 400
  | .writeFailure _ _ => 500

/-- Split a list into chunks of `b` elements (fuel-driven on the length so it
reduces in the kernel; the last chunk may be shorter). -/
def chunkAux {α : Type} (b : Nat) : Nat → List α → List (List α)
  | _, [] => []
  | 0, l => [l]
  | fuel + 1, l => l.take b :: chunkAux b fuel (l.drop b)

/-- The write batches for `rows` at batch size `b`. -/
def chunkRows (b : Nat) (rows : List Row) : List (List Row) :=
  chunkAux b rows.length rows

/-- Modelled from the spec: the batched write loop — batches are written in
order; the first failing batch aborts the remaining ones, and the surfaced
`writeFailure` carries the rows committed before it (spec §4.3, §7). -/
def runWritesAux (writeBatch : Nat → Except String Unit) :
    Nat → List (List Row) → List (List Row) →
    Except UploadError Unit × List (List Row)
  | _, committed, [] => (.ok (), committed)
  | i, committed, batch :: rest =>
    match writeBatch i with
    | .ok _ => runWritesAux writeBatch (i + 1) (committed ++ [batch]) rest
    | .error m =>
      (.error (.writeFailure m ((committed.map List.length).sum)), committed)

/-- Outcome of one diff-upload pipeline run: the overall result and the
batches that were committed to the table. -/
structure PipelineOutcome where
  result : Except UploadError Unit
  committed : List (List Row)

/-- Modelled from the spec: the failure structure of one diff-upload
(spec §4.4, §7) — parse, then schema resolution, then batched writes; a
parse or schema failure aborts before any write. -/
def runDiffUpload (parsed : Except String (List String × List Row))
    (schema : Except String String) (writeBatch : Nat → Except String Unit)
    (b : Nat) : PipelineOutcome :=
  match parsed with
  | .error m => ⟨.error (.parseFailure m), []⟩
  | .ok (_cols, rows) =>
    match schema with
    | .error m => ⟨.error (.schemaFailure m), []⟩
    | .ok _table =>
      let out := runWritesAux writeBatch 0 [] (chunkRows b rows)
      ⟨out.1, out.2⟩

/-! ### Auxiliary predicates and concrete data used by the theorems -/

mutual
/-- No `BigInt` and no `Date` occurs anywhere inside the value — the shape a
JSON response body must have. -/
def noRaw : JSVal → Bool
  | .bigint _ => false
  | .date _ => false
  | .arr l => noRawList l
  | .obj l => noRawFields l
  | .null => true
  | .undef => true
  | .bool _ => true
  | .num _ => true
  | .str _ => true

/-- `noRaw` over an array's elements. -/
def noRawList : List JSVal → Bool
  | [] => true
  | v :: rest => noRaw v && noRawList rest

/-- `noRaw` over an object's fields. -/
def noRawFields : List (String × JSVal) → Bool
  | [] => true
  | (_, v) :: rest => noRaw v && noRawFields rest
end

/-- The field names the spec requires in a diff-upload response body
(spec §6). -/
def diffUploadResponseFields : List String :=
  ["datasetKey", "displayName", "targetTable", "totalRows", "addedCount",
   "updatedCount", "deletedCount", "filename", "downloadUrl", "rowCount",
   "uniqueColumns"]

/-- The `wangguan_onu` dataset of the upload page
(src/app/upload/page.tsx), with its configured unique key `["onu_id"]`. -/
def wangguanOnu : DatasetConfig :=
  { key := "wangguan_onu", displayName := "网管ONU在线清单",
    targetTable := "wangguan_onu", uniqueKeys := ["onu_id"] }

/-- Column set of the concrete scenario uploads. -/
def onuCols : List String := ["onu_id", "status"]

/-- Upload A of the spec's concrete scenario (spec §8). -/
def rowsUploadA : List Row :=
  [[("onu_id", .str "X1"), ("status", .str "online")],
   [("onu_id", .str "X2"), ("status", .str "offline")]]

/-- Upload B of the spec's concrete scenario (spec §8). -/
def rowsUploadB : List Row :=
  [[("onu_id", .str "X1"), ("status", .str "offline")],
   [("onu_id", .str "X2"), ("status", .str "offline")],
   [("onu_id", .str "X3"), ("status", .str "online")]]

/-- The concrete scenario's first upload, against an empty table. -/
def uploadA : UploadOutcome := diffUpload wangguanOnu onuCols rowsUploadA [] "a.xlsx" "/files/a.xlsx"

/-- The concrete scenario's second upload, against the table upload A left. -/
def uploadB : UploadOutcome :=
  diffUpload wangguanOnu onuCols rowsUploadB uploadA.newTable "b.xlsx" "/files/b.xlsx"

/-- A table that already holds row `X1:online` before any upload. -/
def tableWithX1 : List Row := [[("onu_id", .str "X1"), ("status", .str "online")]]

/-- A one-row file whose key `X1` is already present in `tableWithX1` with a
different status. -/
def fileX1Offline : List Row := [[("onu_id", .str "X1"), ("status", .str "offline")]]

/-- A database stub for concrete route evaluations. -/
def dbZero : String → DbResult := fun _ => .ok .null

/-! ### Helper lemmas -/

/-- `find?` returns the unique element satisfying the predicate. -/
theorem find?_eq_some_of_unique {α : Type} {l : List α} {p : α → Bool} {x : α}
    (hx : x ∈ l) (hpx : p x = true) (huniq : ∀ e ∈ l, p e = true → e = x) :
    l.find? p = some x := by
  induction l with
  | nil => cases hx
  | cons a rest ih =>
    by_cases hpa : p a = true
    · have ha : a = x := huniq a (List.mem_cons_self a rest) hpa
      rw [List.find?_cons_of_pos _ hpa, ha]
    · have hpa' : p a = false := Bool.eq_false_iff.mpr hpa
      have hax : a ≠ x := fun h => hpa (h ▸ hpx)
      have hx' : x ∈ rest := by
        rcases List.mem_cons.mp hx with h | h
        · exact absurd h.symm hax
        · exact h
      rw [List.find?_cons_of_neg _ (by simp [hpa'])]
      exact ih hx' (fun e he hpe => huniq e (List.mem_cons_of_mem a he) hpe)

/-- The key lookup misses exactly when no existing row carries the key. -/
theorem lookupByKey_eq_none {keys : List String} {table : List Row}
    {k : List CellValue} (h : ∀ e ∈ table, keyTuple keys e ≠ k) :
    lookupByKey keys table k = none := by
  rw [lookupByKey, List.find?_eq_none]
  intro e he
  simpa using h e (List.mem_reverse.mp he)

/-- A row never differs from itself on non-key columns. -/
theorem nonKeyDiffers_self (keys cols : List String) (r : Row) :
    nonKeyDiffers keys cols r r = false := by
  simp [nonKeyDiffers]

/-- Applying an empty update set leaves the table unchanged. -/
theorem applyUpdates_nil (keys cols : List String) (table : List Row) :
    applyUpdates keys cols [] table = table := by
  unfold applyUpdates
  have h : applyUpdatesRow keys cols [] = fun e => e := funext (fun _ => rfl)
  rw [h, List.map_id']

/-- `rowGet` on a non-empty row inspects the head field first. -/
theorem rowGet_cons (f : String × CellValue) (t : List (String × CellValue))
    (k : String) :
    rowGet (f :: t : Row) k = if (f.1 == k) = true then f.2 else rowGet t k := by
  by_cases hc : (f.1 == k) = true
  · rw [if_pos hc]
    show (match List.find? (fun x => x.1 == k) (f :: t) with
          | some x => x.2 | none => CellValue.null) = f.2
    simp only [List.find?_cons, hc]
  · rw [if_neg hc]
    have hc' : (f.1 == k) = false := Bool.eq_false_iff.mpr hc
    show (match List.find? (fun x => x.1 == k) (f :: t) with
          | some x => x.2 | none => CellValue.null) = rowGet t k
    simp only [List.find?_cons, hc']
    rfl

/-- `mergeRow` on a non-empty row transforms the head field and recurses. -/
theorem mergeRow_cons (keys cols : List String) (u : Row)
    (f : String × CellValue) (t : List (String × CellValue)) :
    mergeRow keys cols u (f :: t : Row) =
      (if cols.contains f.1 && !keys.contains f.1 then (f.1, rowGet u f.1) else f)
        :: mergeRow keys cols u t := rfl

/-- `mergeRow` leaves the value of every key column unchanged. -/
theorem rowGet_mergeRow_of_key (keys cols : List String) (u : Row) :
    ∀ (e : Row) (k : String), keys.contains k = true →
      rowGet (mergeRow keys cols u e) k = rowGet e k := by
  intro e
  induction e with
  | nil => intro k _; rfl
  | cons f rest ih =>
    intro k hk
    rw [mergeRow_cons, rowGet_cons, rowGet_cons]
    by_cases hc : (f.1 == k) = true
    · have hfk : f.1 = k := eq_of_beq hc
      have hkeys : keys.contains f.1 = true := hfk ▸ hk
      have hcond : (cols.contains f.1 && !keys.contains f.1) = false := by
        rw [hkeys]; simp
      rw [hcond]
      simp only [Bool.false_eq_true, if_false]
      rw [if_pos hc, if_pos hc]
    · have hfst : (if cols.contains f.1 && !keys.contains f.1 then
          (f.1, rowGet u f.1) else f).1 = f.1 := by split <;> rfl
      rw [hfst, if_neg hc, if_neg hc]
      exact ih k hk

/-- `mergeRow` preserves the whole key tuple. -/
theorem keyTuple_mergeRow (keys cols : List String) (u e : Row) :
    keyTuple keys (mergeRow keys cols u e) = keyTuple keys e := by
  unfold keyTuple
  apply List.map_congr_left
  intro k hk
  exact rowGet_mergeRow_of_key keys cols u e k (by simpa using hk)

/-- The update pass never changes a stored row's key tuple. -/
theorem keyTuple_applyUpdatesRow (keys cols : List String) (updates : List Row)
    (e : Row) :
    keyTuple keys (applyUpdatesRow keys cols updates e) = keyTuple keys e := by
  unfold applyUpdatesRow
  cases updates.find? (fun u => keyTuple keys u == keyTuple keys e) with
  | none => rfl
  | some u => exact keyTuple_mergeRow keys cols u e

/-- Every parsed row falls in exactly one of the three classes. -/
theorem classify_partition (keys cols : List String) (existing : List Row) :
    ∀ rows : List Row,
      (rows.filter (fun r => classifyRow keys cols existing r == .added)).length +
        (rows.filter (fun r => classifyRow keys cols existing r == .updated)).length +
        (rows.filter (fun r => classifyRow keys cols existing r == .unchanged)).length
        = rows.length := by
  intro rows
  induction rows with
  | nil => rfl
  | cons r rest ih =>
    cases h : classifyRow keys cols existing r <;>
      simp [List.filter_cons, h] <;> omega

/-- The write loop commits exactly the batches before the first failure and
surfaces the committed row count in the error. -/
theorem runWritesAux_spec (wb : Nat → Except String Unit) :
    ∀ (batches : List (List Row)) (i : Nat) (acc : List (List Row)) (k : Nat)
      (m : String),
      (∀ j, j < k → wb (i + j) = .ok ()) → wb (i + k) = .error m →
      k < batches.length →
      runWritesAux wb i acc batches =
        (.error (.writeFailure m (((acc ++ batches.take k).map List.length).sum)),
         acc ++ batches.take k) := by
  intro batches
  induction batches with
  | nil => intro i acc k m _ _ hk; simp at hk
  | cons batch rest ih =>
    intro i acc k m hok herr hk
    cases k with
    | zero =>
      have h0 : wb i = .error m := by simpa using herr
      simp [runWritesAux, h0]
    | succ k' =>
      have h0 : wb i = .ok () := by simpa using hok 0 (Nat.succ_pos k')
      have hok' : ∀ j, j < k' → wb (i + 1 + j) = .ok () := by
        intro j hj
        have : i + 1 + j = i + (j + 1) := by omega
        rw [this]
        exact hok (j + 1) (by omega)
      have herr' : wb (i + 1 + k') = .error m := by
        have : i + 1 + k' = i + (k' + 1) := by omega
        rw [this]; exact herr
      have hk' : k' < rest.length := by simpa using hk
      have := ih (i + 1) (acc ++ [batch]) k' m hok' herr' hk'
      simp only [runWritesAux, h0]
      rw [this]
      simp [List.take_succ_cons, List.append_assoc]

mutual
/-- No `BigInt` or `Date` survives serialization. -/
theorem noRaw_serializeBigInt : ∀ v, noRaw (serializeBigInt v) = true
  | .null => rfl
  | .undef => rfl
  | .bool _ => rfl
  | .num _ => rfl
  | .str _ => rfl
  | .bigint _ => rfl
  | .date _ => rfl
  | .arr l => by
      rw [serializeBigInt, noRaw]
      exact noRawList_serializeList l
  | .obj l => by
      rw [serializeBigInt, noRaw]
      exact noRawFields_serializeFields l

/-- Array case of `noRaw_serializeBigInt`. -/
theorem noRawList_serializeList : ∀ l, noRawList (serializeList l) = true
  | [] => rfl
  | v :: rest => by
      rw [serializeList, noRawList, noRaw_serializeBigInt v,
        noRawList_serializeList rest]
      rfl

/-- Object case of `noRaw_serializeBigInt`. -/
theorem noRawFields_serializeFields : ∀ l, noRawFields (serializeFields l) = true
  | [] => rfl
  | (k, v) :: rest => by
      rw [serializeFields, noRawFields, noRaw_serializeBigInt v,
        noRawFields_serializeFields rest]
      rfl
end

mutual
/-- Serialization leaves a value without `BigInt`/`Date` unchanged. -/
theorem serializeBigInt_of_noRaw : ∀ v, noRaw v = true → serializeBigInt v = v
  | .null, _ => rfl
  | .undef, _ => rfl
  | .bool _, _ => rfl
  | .num _, _ => rfl
  | .str _, _ => rfl
  | .bigint _, h => by simp [noRaw] at h
  | .date _, h => by simp [noRaw] at h
  | .arr l, h => by
      rw [serializeBigInt, serializeList_of_noRaw l (by rw [noRaw] at h; exact h)]
  | .obj l, h => by
      rw [serializeBigInt, serializeFields_of_noRaw l (by rw [noRaw] at h; exact h)]

/-- Array case of `serializeBigInt_of_noRaw`. -/
theorem serializeList_of_noRaw : ∀ l, noRawList l = true → serializeList l = l
  | [], _ => rfl
  | v :: rest, h => by
      rw [noRawList, Bool.and_eq_true] at h
      rw [serializeList, serializeBigInt_of_noRaw v h.1, serializeList_of_noRaw rest h.2]

/-- Object case of `serializeBigInt_of_noRaw`. -/
theorem serializeFields_of_noRaw :
    ∀ l, noRawFields l = true → serializeFields l = l
  | [], _ => rfl
  | (k, v) :: rest, h => by
      rw [noRawFields, Bool.and_eq_true] at h
      rw [serializeFields, serializeBigInt_of_noRaw v h.1,
        serializeFields_of_noRaw rest h.2]
end

/-- `serializeList` is elementwise serialization. -/
theorem serializeList_eq_map : ∀ l, serializeList l = l.map serializeBigInt
  | [] => rfl
  | v :: rest => by rw [serializeList, List.map, serializeList_eq_map rest]

/-- `serializeFields` serializes each field's value and keeps its name. -/
theorem serializeFields_eq_map :
    ∀ l, serializeFields l = l.map (fun f => (f.1, serializeBigInt f.2))
  | [] => rfl
  | (k, v) :: rest => by
      rw [serializeFields, List.map, serializeFields_eq_map rest]

/-- Rows processed never decrease from one batch to the next. -/
theorem processedAfter_mono (n b : Nat) {i j : Nat} (h : i ≤ j) :
    processedAfter n b i ≤ processedAfter n b j :=
  min_le_min (Nat.mul_le_mul_right b (by omega)) le_rfl

/-- A writing-stage percentage never exceeds 100. -/
theorem writingStage_percent_le (n b i : Nat) :
    (writingStage n b i).percent ≤ 100 := by
  show processedAfter n b i * 100 / n ≤ 100
  rcases Nat.eq_zero_or_pos n with hn | hn
  · subst hn
    simp [processedAfter]
  · calc processedAfter n b i * 100 / n
        ≤ n * 100 / n :=
          Nat.div_le_div_right (Nat.mul_le_mul_right 100 (min_le_right _ _))
      _ = 100 := Nat.mul_div_cancel_left 100 hn

/-- The cleaned form of the empty query is empty. -/
theorem cleanSqlQuery_empty : cleanSqlQuery "" = "" := rfl

/-- A validated query string is non-empty. -/
theorem validateSqlQuery_ne_empty (s : String)
    (h : (validateSqlQuery s).isValid = true) : s ≠ "" := by
  intro h0
  rw [h0] at h
  exact absurd h (by decide)

/-! ### Claim theorems -/

/-- Claim C1: during a diff-upload, a parsed row whose key tuple misses the
existing-table lookup is classified as added, a hit with a differing non-key
column as updated, and a hit with no differing non-key column as unchanged —
unchanged rows are neither reported in the added/updated sets nor counted;
concretely, for `wangguan_onu` with unique key `["onu_id"]`, after upload A
(X1:online, X2:offline; addedCount 2) upload B (X1:offline, X2:offline,
X3:online) yields addedCount 1, updatedCount 1, deletedCount 0. -/
theorem diff_upload_classifies_rows :
    (∀ (keys cols : List String) (existing : List Row) (r : Row),
      (lookupByKey keys existing (keyTuple keys r) = none →
        classifyRow keys cols existing r = .added) ∧
      (∀ e, lookupByKey keys existing (keyTuple keys r) = some e →
        (nonKeyDiffers keys cols r e = true →
          classifyRow keys cols existing r = .updated) ∧
        (nonKeyDiffers keys cols r e = false →
          classifyRow keys cols existing r = .unchanged))) ∧
    (∀ (cfg : DatasetConfig) (cols : List String) (rows existing : List Row)
        (f d : String),
      (diffUpload cfg cols rows existing f d).response.addedCount +
        (diffUpload cfg cols rows existing f d).response.updatedCount +
        (rows.filter (fun r =>
          classifyRow (effectiveKeys cfg cols) cols existing r == .unchanged)).length
        = rows.length) ∧
    (∀ (keys cols : List String) (existing rows : List Row) (r : Row),
      classifyRow keys cols existing r = .unchanged →
      r ∉ rows.filter (fun x => classifyRow keys cols existing x == RowClass.added) ∧
      r ∉ rows.filter (fun x => classifyRow keys cols existing x == RowClass.updated)) ∧
    (uploadA.response.addedCount = 2 ∧ uploadB.response.addedCount = 1 ∧
      uploadB.response.updatedCount = 1 ∧ uploadB.response.deletedCount = 0) := by
  refine ⟨?_, ?_, ?_, by decide⟩
  · intro keys cols existing r
    constructor
    · intro h
      simp [classifyRow, h]
    · intro e he
      constructor <;> intro hd <;> simp [classifyRow, he, hd]
  · intro cfg cols rows existing f d
    simp only [diffUpload]
    exact classify_partition (effectiveKeys cfg cols) cols existing rows
  · intro keys cols existing rows r h
    constructor <;> intro hmem <;>
      · have := (List.mem_filter.mp hmem).2
        simp [h] at this

/-- Claim C1 witness: the classification rules applied at a concrete row. -/
theorem diff_upload_classifies_rows_witness :
    classifyRow ["onu_id"] onuCols [] [("onu_id", CellValue.str "X3")] = .added ∧
    uploadB.response.addedCount = 1 :=
  ⟨(diff_upload_classifies_rows.1 ["onu_id"] onuCols []
      [("onu_id", CellValue.str "X3")]).1 (by decide),
   diff_upload_classifies_rows.2.2.2.2.1⟩

/-- Claim C2 counterexample: uploading the same one-row file twice is *not*
`addedCount = N` on the first upload when the file's key is already present
in the table — with `X1:online` already stored, uploading `X1:offline` twice
gives `addedCount = 0, updatedCount = 1` on the first upload. -/
theorem diff_upload_idempotent_counterexample :
    ¬ ((diffUpload wangguanOnu onuCols fileX1Offline tableWithX1 "f1" "u1").response.addedCount
          = fileX1Offline.length ∧
       (diffUpload wangguanOnu onuCols fileX1Offline tableWithX1 "f1" "u1").response.updatedCount = 0 ∧
       (diffUpload wangguanOnu onuCols fileX1Offline
          (diffUpload wangguanOnu onuCols fileX1Offline tableWithX1 "f1" "u1").newTable
          "f2" "u2").response.addedCount = 0 ∧
       (diffUpload wangguanOnu onuCols fileX1Offline
          (diffUpload wangguanOnu onuCols fileX1Offline tableWithX1 "f1" "u1").newTable
          "f2" "u2").response.updatedCount = 0) := by decide

/-- Claim C2 (amended): for a dataset with unique keys configured, a file
with pairwise-distinct key tuples none of which is already present in the
target table, uploaded twice in succession, yields `addedCount = N,
updatedCount = 0` on the first upload and `addedCount = 0, updatedCount = 0`
on the second. -/
theorem diff_upload_idempotent_amended (cfg : DatasetConfig)
    (cols : List String) (rows existing : List Row) (f₁ d₁ f₂ d₂ : String)
    (hkeys : cfg.uniqueKeys ≠ [])
    (hfresh : ∀ r ∈ rows, ∀ e ∈ existing,
      keyTuple cfg.uniqueKeys e ≠ keyTuple cfg.uniqueKeys r)
    (hdist : rows.Pairwise
      (fun a b => keyTuple cfg.uniqueKeys a ≠ keyTuple cfg.uniqueKeys b)) :
    (diffUpload cfg cols rows existing f₁ d₁).response.addedCount = rows.length ∧
    (diffUpload cfg cols rows existing f₁ d₁).response.updatedCount = 0 ∧
    (diffUpload cfg cols rows
      (diffUpload cfg cols rows existing f₁ d₁).newTable f₂ d₂).response.addedCount = 0 ∧
    (diffUpload cfg cols rows
      (diffUpload cfg cols rows existing f₁ d₁).newTable f₂ d₂).response.updatedCount = 0 := by
  have hne : cfg.uniqueKeys.isEmpty = false := by
    simp [List.isEmpty_iff, hkeys]
  have hk : effectiveKeys cfg cols = cfg.uniqueKeys := by
    unfold effectiveKeys
    rw [hne]
    rfl
  have hclass1 : ∀ r ∈ rows, classifyRow cfg.uniqueKeys cols existing r = .added := by
    intro r hr
    have hnone : lookupByKey cfg.uniqueKeys existing (keyTuple cfg.uniqueKeys r) = none :=
      lookupByKey_eq_none (fun e he => hfresh r hr e he)
    simp [classifyRow, hnone]
  have hadd1 : rows.filter
      (fun r => classifyRow cfg.uniqueKeys cols existing r == RowClass.added) = rows :=
    List.filter_eq_self.mpr (fun r hr => by simp [hclass1 r hr])
  have hupd1 : rows.filter
      (fun r => classifyRow cfg.uniqueKeys cols existing r == RowClass.updated) = [] :=
    List.filter_eq_nil_iff.mpr (fun r hr => by simp [hclass1 r hr])
  have htable : (diffUpload cfg cols rows existing f₁ d₁).newTable = existing ++ rows := by
    simp only [diffUpload, hk, hupd1, hadd1]
    rw [applyUpdates_nil]
  have hlook2 : ∀ r ∈ rows,
      lookupByKey cfg.uniqueKeys (existing ++ rows) (keyTuple cfg.uniqueKeys r) = some r := by
    intro r hr
    unfold lookupByKey
    rw [List.reverse_append, List.find?_append]
    have hsymm : Symmetric
        (fun a b : Row => keyTuple cfg.uniqueKeys a ≠ keyTuple cfg.uniqueKeys b) :=
      fun _ _ h => h.symm
    have hfind : List.find?
        (fun e => keyTuple cfg.uniqueKeys e == keyTuple cfg.uniqueKeys r) rows.reverse
        = some r := by
      apply find?_eq_some_of_unique (List.mem_reverse.mpr hr) (by simp)
      intro e he hpe
      have he' : e ∈ rows := List.mem_reverse.mp he
      have heq : keyTuple cfg.uniqueKeys e = keyTuple cfg.uniqueKeys r := by
        simpa using hpe
      by_contra hneq
      exact hdist.forall hsymm he' hr hneq heq
    rw [hfind]
    rfl
  have hclass2 : ∀ r ∈ rows,
      classifyRow cfg.uniqueKeys cols (existing ++ rows) r = .unchanged := by
    intro r hr
    simp [classifyRow, hlook2 r hr, nonKeyDiffers_self]
  have hadd2 : rows.filter
      (fun r => classifyRow cfg.uniqueKeys cols (existing ++ rows) r == RowClass.added) = [] :=
    List.filter_eq_nil_iff.mpr (fun r hr => by simp [hclass2 r hr])
  have hupd2 : rows.filter
      (fun r => classifyRow cfg.uniqueKeys cols (existing ++ rows) r == RowClass.updated) = [] :=
    List.filter_eq_nil_iff.mpr (fun r hr => by simp [hclass2 r hr])
  refine ⟨?_, ?_, ?_, ?_⟩
  · simp only [diffUpload, hk, hadd1]
  · simp only [diffUpload, hk, hupd1]
    rfl
  · rw [htable]
    simp only [diffUpload, hk, hadd2]
    rfl
  · rw [htable]
    simp only [diffUpload, hk, hupd2]
    rfl

/-- Claim C2 witness: the amended round-trip at the spec's concrete upload A
against an empty table. -/
theorem diff_upload_idempotent_amended_witness :
    (diffUpload wangguanOnu onuCols rowsUploadA [] "a" "ua").response.addedCount = 2 ∧
    (diffUpload wangguanOnu onuCols rowsUploadA
      (diffUpload wangguanOnu onuCols rowsUploadA [] "a" "ua").newTable
      "b" "ub").response.addedCount = 0 ∧
    (diffUpload wangguanOnu onuCols rowsUploadA
      (diffUpload wangguanOnu onuCols rowsUploadA [] "a" "ua").newTable
      "b" "ub").response.updatedCount = 0 := by
  have h := diff_upload_idempotent_amended wangguanOnu onuCols rowsUploadA []
    "a" "ua" "b" "ub" (by decide) (by decide) (by decide)
  exact ⟨h.1, h.2.2.1, h.2.2.2⟩

/-- Claim C3: a default-path diff-upload reports `deletedCount = 0` and
deletes nothing — the new table keeps one row per existing row (same key
tuple) and only grows by the added rows. -/
theorem diff_upload_never_deletes (cfg : DatasetConfig) (cols : List String)
    (rows existing : List Row) (f d : String) :
    (diffUpload cfg cols rows existing f d).response.deletedCount = 0 ∧
    (diffUpload cfg cols rows existing f d).newTable.length =
      existing.length + (diffUpload cfg cols rows existing f d).response.addedCount ∧
    ∀ e ∈ existing, ∃ e2 ∈ (diffUpload cfg cols rows existing f d).newTable,
      keyTuple (effectiveKeys cfg cols) e2 = keyTuple (effectiveKeys cfg cols) e := by
  refine ⟨rfl, ?_, ?_⟩
  · simp [diffUpload, applyUpdates]
  · intro e he
    refine ⟨applyUpdatesRow (effectiveKeys cfg cols) cols
      (rows.filter (fun r =>
        classifyRow (effectiveKeys cfg cols) cols existing r == RowClass.updated)) e,
      ?_, ?_⟩
    · exact List.mem_append_left _ (List.mem_map_of_mem _ he)
    · exact keyTuple_applyUpdatesRow _ _ _ _

/-- Claim C3 witness: never-deleting at the concrete second upload of the
scenario. -/
theorem diff_upload_never_deletes_witness :
    (diffUpload wangguanOnu onuCols rowsUploadB uploadA.newTable "b" "ub").response.deletedCount = 0 ∧
    (∃ e2 ∈ (diffUpload wangguanOnu onuCols rowsUploadB uploadA.newTable "b" "ub").newTable,
      keyTuple (effectiveKeys wangguanOnu onuCols) e2 =
        keyTuple (effectiveKeys wangguanOnu onuCols)
          [("onu_id", CellValue.str "X1"), ("status", CellValue.str "online")]) := by
  have h := diff_upload_never_deletes wangguanOnu onuCols rowsUploadB
    uploadA.newTable "b" "ub"
  exact ⟨h.1, h.2.2 [("onu_id", CellValue.str "X1"), ("status", CellValue.str "online")]
    (by decide)⟩

/-- Claim C5: the encoded body of every diff-upload response carries all the
fields `datasetKey, displayName, targetTable, totalRows, addedCount,
updatedCount, deletedCount, filename, downloadUrl, rowCount, uniqueColumns`. -/
theorem diff_upload_response_field_set (cfg : DatasetConfig)
    (cols : List String) (rows existing : List Row) (f d : String) :
    diffUploadResponseFields.all (fun n =>
      ((encodeDiffUploadResponse
        (diffUpload cfg cols rows existing f d).response).map Prod.fst).contains n)
      = true := rfl

/-- Claim C6: with no unique-key columns configured, the diff runs on the
first parsed column as a temporary key and the response surfaces the degraded
mode through an empty `uniqueColumns`. -/
theorem diff_upload_degraded_mode (cfg : DatasetConfig) (cols : List String)
    (rows existing : List Row) (f d : String) (h : cfg.uniqueKeys = []) :
    effectiveKeys cfg cols = cols.take 1 ∧
    (diffUpload cfg cols rows existing f d).response.uniqueColumns = [] ∧
    (diffUpload cfg cols rows existing f d).response.addedCount =
      (rows.filter (fun r =>
        classifyRow (cols.take 1) cols existing r == RowClass.added)).length ∧
    (diffUpload cfg cols rows existing f d).response.updatedCount =
      (rows.filter (fun r =>
        classifyRow (cols.take 1) cols existing r == RowClass.updated)).length := by
  have hk : effectiveKeys cfg cols = cols.take 1 := by
    simp [effectiveKeys, h]
  exact ⟨hk, by simp [diffUpload, h], by simp only [diffUpload, hk],
    by simp only [diffUpload, hk]⟩

/-- Claim C6 witness: degraded mode at a concrete key-less dataset. -/
theorem diff_upload_degraded_mode_witness :
    effectiveKeys
      { key := "k", displayName := "D", targetTable := "t", uniqueKeys := [] }
      onuCols = ["onu_id"] ∧
    (diffUpload
      { key := "k", displayName := "D", targetTable := "t", uniqueKeys := [] }
      onuCols rowsUploadA [] "f" "u").response.uniqueColumns = [] := by
  have h := diff_upload_degraded_mode
    { key := "k", displayName := "D", targetTable := "t", uniqueKeys := [] }
    onuCols rowsUploadA [] "f" "u" rfl
  exact ⟨h.1, h.2.1⟩

/-- Claim C4: the sql-query endpoint executes a query only when validation
accepts it; validation accepts only strings whose cleaned form is non-empty,
begins case-insensitively with `select` or `with`, and contains none of the
write/DDL substrings; and a rejected query yields an error response and is
never executed. -/
theorem sql_query_validation_gate (body : ReqBody) (db : String → DbResult) :
    (∀ q ∈ (POST body db).executed, (validateSqlQuery q).isValid = true) ∧
    (∀ s : String, (validateSqlQuery s).isValid = true →
      cleanSqlQuery s ≠ "" ∧
      (jsStartsWith (jsToLower (cleanSqlQuery s)) "select" = true ∨
        jsStartsWith (jsToLower (cleanSqlQuery s)) "with" = true) ∧
      (∀ op ∈ dangerousOperations,
        jsIncludes (jsToLower (cleanSqlQuery s)) op = false)) ∧
    (∀ sql : String, body = ReqBody.parsed (some sql) →
      (validateSqlQuery (cleanSqlQuery sql)).isValid = false →
      (POST body db).executed = [] ∧
      ∃ e st, (POST body db).response = ApiResponse.failure e st) := by
  refine ⟨?_, ?_, ?_⟩
  · intro q hq
    cases body with
    | malformed m => simp [POST, withErrorHandling, handlePostTotal] at hq
    | parsed sql? =>
      cases sql? with
      | none => simp [POST, withErrorHandling, handlePostTotal, handlePost] at hq
      | some sql =>
        by_cases h1 : sql = ""
        · simp [POST, withErrorHandling, handlePostTotal, handlePost, h1] at hq
        · by_cases h2 : cleanSqlQuery sql = ""
          · simp [POST, withErrorHandling, handlePostTotal, handlePost, h1, h2] at hq
          · by_cases h3 : (validateSqlQuery (cleanSqlQuery sql)).isValid = true
            · cases hdb : db (cleanSqlQuery sql) with
              | ok rows =>
                simp [POST, withErrorHandling, handlePostTotal, handlePost,
                  h1, h2, h3, hdb] at hq
                exact hq ▸ h3
              | err m =>
                simp [POST, withErrorHandling, handlePostTotal, handlePost,
                  h1, h2, h3, hdb] at hq
                exact hq ▸ h3
            · simp [POST, withErrorHandling, handlePostTotal, handlePost,
                h1, h2, h3] at hq
  · intro s hv
    by_cases h0 : s = ""
    · exact absurd hv (by rw [h0]; decide)
    · rw [validateSqlQuery, if_neg h0] at hv
      by_cases h1 : jsToLower (cleanSqlQuery s) = ""
      · simp [h1] at hv
      · have hcleanne : cleanSqlQuery s ≠ "" := by
          intro hc
          apply h1
          rw [hc]
          rfl
        cases hfind : dangerousOperations.find?
            (fun op => jsIncludes (jsToLower (cleanSqlQuery s)) op) with
        | some op => simp [h1, hfind] at hv
        | none =>
          have hops : ∀ op ∈ dangerousOperations,
              jsIncludes (jsToLower (cleanSqlQuery s)) op = false := by
            intro op hop
            simpa using List.find?_eq_none.mp hfind op hop
          simp only [h1, hfind] at hv
          by_cases hsel : jsStartsWith (jsToLower (cleanSqlQuery s)) "select" = true
          · exact ⟨hcleanne, Or.inl hsel, hops⟩
          · by_cases hwith : jsStartsWith (jsToLower (cleanSqlQuery s)) "with" = true
            · exact ⟨hcleanne, Or.inr hwith, hops⟩
            · have hsel' := Bool.eq_false_iff.mpr hsel
              have hwith' := Bool.eq_false_iff.mpr hwith
              simp [hsel', hwith'] at hv
  · intro sql hbody hinvalid
    subst hbody
    by_cases h1 : sql = ""
    · exact ⟨by simp [POST, withErrorHandling, handlePostTotal, handlePost, h1],
        ⟨"INVALID_REQUEST", "缺少SQL查询语句"⟩, 400,
        by simp [POST, withErrorHandling, handlePostTotal, handlePost, h1,
          createErrorResponse]⟩
    · by_cases h2 : cleanSqlQuery sql = ""
      · exact ⟨by simp [POST, withErrorHandling, handlePostTotal, handlePost, h1, h2],
          ⟨"INVALID_REQUEST", "SQL查询语句为空"⟩, 400,
          by simp [POST, withErrorHandling, handlePostTotal, handlePost, h1, h2,
            createErrorResponse]⟩
      · exact ⟨by simp [POST, withErrorHandling, handlePostTotal, handlePost, h1, h2,
            hinvalid],
          ⟨"INVALID_SQL", (validateSqlQuery (cleanSqlQuery sql)).error.getD "SQL查询语句无效"⟩,
          400,
          by simp [POST, withErrorHandling, handlePostTotal, handlePost, h1, h2,
            hinvalid, createErrorResponse]⟩

/-- Claim C4 witness: a forbidden `DROP TABLE` is rejected without execution,
and a validated `SELECT` has the guaranteed shape. -/
theorem sql_query_validation_gate_witness :
    (POST (ReqBody.parsed (some "DROP TABLE users")) dbZero).executed = [] ∧
    cleanSqlQuery "SELECT 1" ≠ "" :=
  ⟨((sql_query_validation_gate (ReqBody.parsed (some "DROP TABLE users")) dbZero).2.2
      "DROP TABLE users" rfl (by decide)).1,
    ((sql_query_validation_gate (ReqBody.parsed (some "SELECT 1")) dbZero).2.1
      "SELECT 1" (by decide)).1⟩

/-- Claim C9: the sql-query route is total over exceptions — every request
produces either serialized results or a `{success: false, error: {code,
message}}` body whose code is `INVALID_REQUEST` for a missing/empty SQL body,
`INVALID_SQL` for a failed validation, `QUERY_ERROR` for a database failure,
or `INTERNAL_SERVER_ERROR` with status 500 for any other thrown exception. -/
theorem sql_query_route_total (body : ReqBody) (db : String → DbResult) :
    ((∃ data, (POST body db).response = ApiResponse.success data) ∨
      (∃ code msg st, (POST body db).response = ApiResponse.failure ⟨code, msg⟩ st ∧
        (code = "INVALID_REQUEST" ∨ code = "INVALID_SQL" ∨ code = "QUERY_ERROR" ∨
          (code = "INTERNAL_SERVER_ERROR" ∧ st = 500)))) ∧
    (∀ m, body = ReqBody.malformed m →
      (POST body db).response = ApiResponse.failure ⟨"INTERNAL_SERVER_ERROR", m⟩ 500) ∧
    ((body = ReqBody.parsed none ∨ body = ReqBody.parsed (some "")) →
      (POST body db).response =
        ApiResponse.failure ⟨"INVALID_REQUEST", "缺少SQL查询语句"⟩ 400) ∧
    (∀ sql, body = ReqBody.parsed (some sql) → sql ≠ "" → cleanSqlQuery sql = "" →
      (POST body db).response =
        ApiResponse.failure ⟨"INVALID_REQUEST", "SQL查询语句为空"⟩ 400) ∧
    (∀ sql, body = ReqBody.parsed (some sql) → cleanSqlQuery sql ≠ "" →
      (validateSqlQuery (cleanSqlQuery sql)).isValid = false →
      ∃ msg, (POST body db).response = ApiResponse.failure ⟨"INVALID_SQL", msg⟩ 400) ∧
    (∀ sql m, body = ReqBody.parsed (some sql) →
      (validateSqlQuery (cleanSqlQuery sql)).isValid = true →
      db (cleanSqlQuery sql) = DbResult.err m →
      (POST body db).response =
        ApiResponse.failure ⟨"QUERY_ERROR", "SQL查询错误: " ++ m⟩ 400) ∧
    (∀ sql rows, body = ReqBody.parsed (some sql) →
      (validateSqlQuery (cleanSqlQuery sql)).isValid = true →
      db (cleanSqlQuery sql) = DbResult.ok rows →
      (POST body db).response = ApiResponse.success (serializeBigInt rows)) := by
  have hvne : ∀ sql : String,
      (validateSqlQuery (cleanSqlQuery sql)).isValid = true → sql ≠ "" := by
    intro sql hv h0
    rw [h0, cleanSqlQuery_empty] at hv
    exact absurd hv (by decide)
  refine ⟨?_, ?_, ?_, ?_, ?_, ?_, ?_⟩
  · cases body with
    | malformed m =>
      exact Or.inr ⟨"INTERNAL_SERVER_ERROR", m, 500,
        by simp [POST, withErrorHandling, handlePostTotal, createErrorResponse],
        Or.inr (Or.inr (Or.inr ⟨rfl, rfl⟩))⟩
    | parsed sql? =>
      cases sql? with
      | none =>
        exact Or.inr ⟨"INVALID_REQUEST", "缺少SQL查询语句", 400,
          by simp [POST, withErrorHandling, handlePostTotal, handlePost,
            createErrorResponse],
          Or.inl rfl⟩
      | some sql =>
        by_cases h1 : sql = ""
        · exact Or.inr ⟨"INVALID_REQUEST", "缺少SQL查询语句", 400,
            by simp [POST, withErrorHandling, handlePostTotal, handlePost, h1,
              createErrorResponse],
            Or.inl rfl⟩
        · by_cases h2 : cleanSqlQuery sql = ""
          · exact Or.inr ⟨"INVALID_REQUEST", "SQL查询语句为空", 400,
              by simp [POST, withErrorHandling, handlePostTotal, handlePost, h1, h2,
                createErrorResponse],
              Or.inl rfl⟩
          · by_cases h3 : (validateSqlQuery (cleanSqlQuery sql)).isValid = true
            · cases hdb : db (cleanSqlQuery sql) with
              | ok rows =>
                exact Or.inl ⟨serializeBigInt rows,
                  by simp [POST, withErrorHandling, handlePostTotal, handlePost,
                    h1, h2, h3, hdb, createSuccessResponse]⟩
              | err m =>
                exact Or.inr ⟨"QUERY_ERROR", "SQL查询错误: " ++ m, 400,
                  by simp [POST, withErrorHandling, handlePostTotal, handlePost,
                    h1, h2, h3, hdb, createErrorResponse],
                  Or.inr (Or.inr (Or.inl rfl))⟩
            · have h3' := Bool.eq_false_iff.mpr h3
              exact Or.inr ⟨"INVALID_SQL",
                (validateSqlQuery (cleanSqlQuery sql)).error.getD "SQL查询语句无效", 400,
                by simp [POST, withErrorHandling, handlePostTotal, handlePost,
                  h1, h2, h3', createErrorResponse],
                Or.inr (Or.inl rfl)⟩
  · intro m hbody
    subst hbody
    simp [POST, withErrorHandling, handlePostTotal, createErrorResponse]
  · intro hbody
    rcases hbody with hbody | hbody <;> subst hbody <;>
      simp [POST, withErrorHandling, handlePostTotal, handlePost, createErrorResponse]
  · intro sql hbody h1 h2
    subst hbody
    simp [POST, withErrorHandling, handlePostTotal, handlePost, h1, h2,
      createErrorResponse]
  · intro sql hbody h2 hinvalid
    subst hbody
    have h1 : sql ≠ "" := by
      intro h0
      rw [h0, cleanSqlQuery_empty] at h2
      exact h2 rfl
    exact ⟨(validateSqlQuery (cleanSqlQuery sql)).error.getD "SQL查询语句无效",
      by simp [POST, withErrorHandling, handlePostTotal, handlePost, h1, h2,
        hinvalid, createErrorResponse]⟩
  · intro sql m hbody hv hdb
    subst hbody
    have h1 : sql ≠ "" := hvne sql hv
    have h2 : cleanSqlQuery sql ≠ "" := validateSqlQuery_ne_empty _ hv
    simp [POST, withErrorHandling, handlePostTotal, handlePost, h1, h2, hv, hdb,
      createErrorResponse]
  · intro sql rows hbody hv hdb
    subst hbody
    have h1 : sql ≠ "" := hvne sql hv
    have h2 : cleanSqlQuery sql ≠ "" := validateSqlQuery_ne_empty _ hv
    simp [POST, withErrorHandling, handlePostTotal, handlePost, h1, h2, hv, hdb,
      createSuccessResponse]

/-- Claim C9 witness: the taxonomy applied at a malformed request and at a
concrete successful query. -/
theorem sql_query_route_total_witness :
    (POST (ReqBody.malformed "boom") dbZero).response =
      ApiResponse.failure ⟨"INTERNAL_SERVER_ERROR", "boom"⟩ 500 ∧
    (POST (ReqBody.parsed (some "SELECT 1")) dbZero).response =
      ApiResponse.success (serializeBigInt JSVal.null) :=
  ⟨(sql_query_route_total (ReqBody.malformed "boom") dbZero).2.1 "boom" rfl,
    (sql_query_route_total (ReqBody.parsed (some "SELECT 1")) dbZero).2.2.2.2.2.2
      "SELECT 1" JSVal.null rfl (by decide) rfl⟩

/-- Claim C10: `serializeBigInt` maps arrays and objects recursively, leaves
`BigInt`/`Date`-free values unchanged, replaces every `BigInt` by its decimal
string and every `Date` by its ISO string, and consequently every successful
sql-query response body is free of raw `BigInt` and `Date` values. -/
theorem serialize_bigint_sound :
    (∀ v, noRaw (serializeBigInt v) = true) ∧
    (∀ v, noRaw v = true → serializeBigInt v = v) ∧
    (∀ i : ℤ, serializeBigInt (JSVal.bigint i) = JSVal.str (bigintToString i)) ∧
    (∀ iso : String, serializeBigInt (JSVal.date iso) = JSVal.str iso) ∧
    (∀ l, serializeBigInt (JSVal.arr l) = JSVal.arr (l.map serializeBigInt)) ∧
    (∀ l, serializeBigInt (JSVal.obj l) =
      JSVal.obj (l.map (fun f => (f.1, serializeBigInt f.2)))) ∧
    (∀ (body : ReqBody) (db : String → DbResult) (data : JSVal),
      (POST body db).response = ApiResponse.success data → noRaw data = true) := by
  refine ⟨noRaw_serializeBigInt, serializeBigInt_of_noRaw, fun _ => rfl, fun _ => rfl,
    ?_, ?_, ?_⟩
  · intro l
    rw [serializeBigInt, serializeList_eq_map]
  · intro l
    rw [serializeBigInt, serializeFields_eq_map]
  · intro body db data h
    cases body with
    | malformed m =>
      simp [POST, withErrorHandling, handlePostTotal, createErrorResponse] at h
    | parsed sql? =>
      cases sql? with
      | none =>
        simp [POST, withErrorHandling, handlePostTotal, handlePost,
          createErrorResponse] at h
      | some sql =>
        by_cases h1 : sql = ""
        · simp [POST, withErrorHandling, handlePostTotal, handlePost, h1,
            createErrorResponse] at h
        · by_cases h2 : cleanSqlQuery sql = ""
          · simp [POST, withErrorHandling, handlePostTotal, handlePost, h1, h2,
              createErrorResponse] at h
          · by_cases h3 : (validateSqlQuery (cleanSqlQuery sql)).isValid = true
            · cases hdb : db (cleanSqlQuery sql) with
              | ok rows =>
                simp [POST, withErrorHandling, handlePostTotal, handlePost,
                  h1, h2, h3, hdb, createSuccessResponse] at h
                rw [← h]
                exact noRaw_serializeBigInt rows
              | err m =>
                simp [POST, withErrorHandling, handlePostTotal, handlePost,
                  h1, h2, h3, hdb, createErrorResponse] at h
            · simp [POST, withErrorHandling, handlePostTotal, handlePost,
                h1, h2, h3, createErrorResponse] at h

/-- Claim C10 witness: serialization applied at concrete values and the
response-body consequence at a concrete request. -/
theorem serialize_bigint_sound_witness :
    serializeBigInt (JSVal.obj [("n", JSVal.bigint 5)]) =
      JSVal.obj [("n", JSVal.str "5")] ∧
    serializeBigInt (JSVal.str "x") = JSVal.str "x" ∧
    noRaw JSVal.null = true :=
  ⟨by
    rw [serialize_bigint_sound.2.2.2.2.2.1 [("n", JSVal.bigint 5)]]
    rfl,
  serialize_bigint_sound.2.1 (JSVal.str "x") rfl,
  serialize_bigint_sound.2.2.2.2.2.2 (ReqBody.parsed (some "SELECT 1")) dbZero
    JSVal.null rfl⟩

/-- Claim C7: across one successful diff-upload, the published progress
percentages are monotonically non-decreasing from 0 to 100 (so any
subsequence of polls observes non-decreasing values) and the final state has
status `done`. -/
theorem progress_trace_monotone_done (n b : Nat) :
    ((progressTrace n b).map UploadProgress.percent).Pairwise (· ≤ ·) ∧
    ((progressTrace n b).map UploadProgress.percent).head? = some 0 ∧
    (progressTrace n b).getLast? = some (doneStage n) ∧
    (doneStage n).status = "done" ∧ (doneStage n).percent = 100 := by
  refine ⟨?_, rfl, ?_, rfl, rfl⟩
  · rw [progressTrace, List.map_append, List.map_append, List.map_map]
    rw [List.pairwise_append]
    refine ⟨?_, by simp, ?_⟩
    · rw [List.pairwise_append]
      refine ⟨show List.Pairwise (· ≤ ·) ([0, 0, 0] : List Nat) from by decide, ?_, ?_⟩
      · apply (List.pairwise_lt_range (numBatches n b)).map
        intro i j hij
        exact Nat.div_le_div_right
          (Nat.mul_le_mul_right 100 (processedAfter_mono n b (Nat.le_of_lt hij)))
      · intro x hx y hy
        have hx0 : x = 0 := by
          simp [earlyStage] at hx
          exact hx
        rw [hx0]
        exact Nat.zero_le y
    · intro x hx y hy
      have hy100 : y = 100 := by simpa [doneStage] using hy
      rcases List.mem_append.mp hx with h | h
      · have hx0 : x = 0 := by
          simp [earlyStage] at h
          exact h
        rw [hx0, hy100]
        exact Nat.zero_le 100
      · rcases List.mem_map.mp h with ⟨i, _, hi⟩
        rw [← hi, hy100]
        exact writingStage_percent_le n b i
  · rw [progressTrace]
    exact List.getLast?_concat _

/-- Claim C8: a diff-upload that fails at parsing or schema resolution
aborts before any batch is written and is surfaced with a 4xx status; a
failure at write batch `k` preserves exactly the batches committed before it
and the surfaced error carries their row count. -/
theorem diff_upload_error_propagation :
    (∀ (m : String) (schema : Except String String)
        (wb : Nat → Except String Unit) (b : Nat),
      (runDiffUpload (.error m) schema wb b).result = .error (.parseFailure m) ∧
      (runDiffUpload (.error m) schema wb b).committed = [] ∧
      errorStatus (.parseFailure m) / 100 = 4) ∧
    (∀ (cols : List String) (rows : List Row) (m : String)
        (wb : Nat → Except String Unit) (b : Nat),
      (runDiffUpload (.ok (cols, rows)) (.error m) wb b).result =
        .error (.schemaFailure m) ∧
      (runDiffUpload (.ok (cols, rows)) (.error m) wb b).committed = [] ∧
      errorStatus (.schemaFailure m) / 100 = 4) ∧
    (∀ (cols : List String) (rows : List Row) (t : String)
        (wb : Nat → Except String Unit) (b k : Nat) (m : String),
      (∀ j, j < k → wb j = .ok ()) → wb k = .error m →
      k < (chunkRows b rows).length →
      runDiffUpload (.ok (cols, rows)) (.ok t) wb b =
        ⟨.error (.writeFailure m
            ((((chunkRows b rows).take k).map List.length).sum)),
          (chunkRows b rows).take k⟩) := by
  refine ⟨fun _ _ _ _ => ⟨rfl, rfl, show (400 : Nat) / 100 = 4 by decide⟩,
    fun _ _ _ _ _ => ⟨rfl, rfl, show (400 : Nat) / 100 = 4 by decide⟩, ?_⟩
  intro cols rows t wb b k m hok herr hk
  have hspec := runWritesAux_spec wb (chunkRows b rows) 0 [] k m
    (fun j hj => by simpa using hok j hj) (by simpa using herr) hk
  simp only [runDiffUpload]
  rw [hspec]
  simp

/-- Claim C8 witness: a write failure at the second batch of a three-batch
upload preserves exactly the first batch. -/
theorem diff_upload_error_propagation_witness :
    runDiffUpload (.ok (onuCols, rowsUploadB)) (.ok "t")
        (fun j => if j = 1 then .error "disk full" else .ok ()) 1 =
      ⟨.error (.writeFailure "disk full" 1),
        [[[("onu_id", CellValue.str "X1"), ("status", CellValue.str "offline")]]]⟩ ∧
    errorStatus (.parseFailure "bad file") / 100 = 4 := by
  constructor
  · have h := diff_upload_error_propagation.2.2 onuCols rowsUploadB "t"
      (fun j => if j = 1 then .error "disk full" else .ok ()) 1 1 "disk full"
      (by
        intro j hj
        have hj0 : j = 0 := by omega
        rw [hj0]
        rfl)
      rfl (by decide)
    rw [h]
    rfl
  · exact diff_upload_error_propagation.1 "bad file" (.ok "t") (fun _ => .ok ()) 1
      |>.2.2

end ElecAgent
